import Mathlib

/-!
Verification development for the CSV-to-metrics parser
(repository javascript_CSV_parser, files src/parser.ts, src/reader.ts and the
current parser revision shipped alongside them; the latter revision is the one
the repository test-suites exercise and is taken as the operative source for
`parseRecord`, `parseMetadataRow`, `initializeMetadataSeparator`,
`parseTimestamp`, `reset`, `parseLine` and the `parseCSV` phases; places where
the older `src/parser.ts` snapshot differs are noted in comments).

Numbers are modelled as exact rationals (JavaScript `number` restricted to the
values produced by parsing finite decimal/hex literals), with distinguished
infinities; `NaN` is modelled as `Option.none` of the conversion functions.
JavaScript objects that only ever hold string keys are modelled as
insertion-ordered association lists (`recSet`/`recGet`/`recDelete` mirror
property assignment, lookup and `delete`); all column/tag names appearing in
the theorems are non-numeric strings, for which JavaScript preserves insertion
order.  The external tokenizer (Papa.parse) is out of scope per the component boundary of the design: parsing entry points take the tokenized rows it delivers.
-/

namespace CSV

/-- Whitespace characters recognised by JavaScript string-to-number
conversion (ASCII subset, sufficient for the inputs considered here). -/
def wsChars : List Char := [' ', '\t', '\n', '\r', '\x0b', '\x0c']

/-- Numeric value of a list of decimal digit characters. -/
def natOfDigits (ds : List Char) : Nat :=
  ds.foldl (fun a c => a * 10 + (c.toNat - 48)) 0

/-- Value of a hexadecimal digit character, if it is one. -/
def hexDigitVal (c : Char) : Option Nat :=
  if c.isDigit then some (c.toNat - 48)
  else if 'a' ≤ c ∧ c ≤ 'f' then some (c.toNat - 87)
  else if 'A' ≤ c ∧ c ≤ 'F' then some (c.toNat - 55)
  else none

/-- Optional exponent part of a JavaScript decimal literal: consumes
`e`/`E`, an optional sign and at least one digit; if the digits are missing
nothing is consumed and the exponent is 0. -/
def parseExpLead (cs : List Char) : Int × List Char :=
  match cs with
  | c :: rest =>
    if c = 'e' ∨ c = 'E' then
      match rest with
      | s :: rest2 =>
        if s = '+' ∨ s = '-' then
          let p := rest2.span Char.isDigit
          if p.1 = [] then (0, cs)
          else ((if s = '-' then -(natOfDigits p.1 : Int) else (natOfDigits p.1 : Int)), p.2)
        else
          let p := rest.span Char.isDigit
          if p.1 = [] then (0, cs) else ((natOfDigits p.1 : Int), p.2)
      | [] => (0, cs)
    else (0, cs)
  | [] => (0, cs)

/-- Exact rational value of a signed decimal literal with integer digits,
fraction digits and a decimal exponent. -/
def decToRat (sign : Bool) (intDs fracDs : List Char) (e : Int) : ℚ :=
  let m : Nat := natOfDigits (intDs ++ fracDs)
  let signed : Int := if sign then -(m : Int) else (m : Int)
  if 0 ≤ e then mkRat (signed * ((10 : Nat) ^ e.toNat : Nat)) ((10 : Nat) ^ fracDs.length)
  else mkRat signed ((10 : Nat) ^ (fracDs.length + e.natAbs))

/-- Longest decimal-literal prefix of a character list (digits, optional
fraction, optional exponent), as in the ECMAScript grammar shared by
`parseFloat` and the decimal case of `Number`; returns the value and the
unconsumed rest. -/
def parseDecLead (sign : Bool) (cs : List Char) : Option (ℚ × List Char) :=
  let p := cs.span Char.isDigit
  match p.2 with
  | '.' :: r2 =>
    let q := r2.span Char.isDigit
    if p.1 = [] ∧ q.1 = [] then none
    else
      let er := parseExpLead q.2
      some (decToRat sign p.1 q.1 er.1, er.2)
  | _ =>
    if p.1 = [] then none
    else
      let er := parseExpLead p.2
      some (decToRat sign p.1 [] er.1, er.2)

/-- JavaScript numbers as far as this parser can observe them: finite values
(exact rationals) and the two infinities.  `NaN` is `none` of the surrounding
`Option`. -/
inductive JSNum where
  | fin (q : ℚ)
  | posInf
  | negInf
deriving DecidableEq, Repr

/-- Body of `parseFloat` after whitespace/sign handling: an `Infinity`
prefix or a decimal-literal prefix. -/
def parseFloatBody (sign : Bool) (cs : List Char) : Option JSNum :=
  if "Infinity".data.isPrefixOf cs then some (if sign then .negInf else .posInf)
  else
    match parseDecLead sign cs with
    | some p => some (.fin p.1)
    | none => none

/-- JavaScript `parseFloat`: skip leading whitespace, optional sign, then the
longest decimal-literal (or `Infinity`) prefix; `none` is `NaN`. -/
def jsParseFloat (s : String) : Option JSNum :=
  let cs := s.data.dropWhile (· ∈ wsChars)
  match cs with
  | '+' :: rest => parseFloatBody false rest
  | '-' :: rest => parseFloatBody true rest
  | _ => parseFloatBody false cs

/-- Whole-string radix literal (hex/octal/binary body after the `0x`-style
tag) for JavaScript `Number`. -/
def parseRadixAll (radix : Nat) (cs : List Char) : Option JSNum :=
  if cs = [] then none
  else
    match cs.mapM hexDigitVal with
    | none => none
    | some ds =>
      if ds.all (· < radix) then some (.fin ((ds.foldl (fun a d => a * radix + d) 0 : Nat) : ℚ))
      else none

/-- Decimal case of JavaScript `Number`: optional sign, then `Infinity` or a
decimal literal that must consume the whole string. -/
def jsNumberDec (cs : List Char) : Option JSNum :=
  let body := match cs with
    | '+' :: rest => (false, rest)
    | '-' :: rest => (true, rest)
    | _ => (false, cs)
  if body.2 = "Infinity".data then some (if body.1 then .negInf else .posInf)
  else
    match parseDecLead body.1 body.2 with
    | some (q, []) => some (.fin q)
    | _ => none

/-- JavaScript `Number` applied to a string (ECMAScript ToNumber): trim
whitespace on both ends, empty means 0, unsigned `0x`/`0o`/`0b` literals,
otherwise a whole-string signed decimal literal or `Infinity`; `none` is
`NaN`. -/
def jsNumber (s : String) : Option JSNum :=
  let cs := ((s.data.dropWhile (· ∈ wsChars)).reverse.dropWhile (· ∈ wsChars)).reverse
  match cs with
  | [] => some (.fin 0)
  | '0' :: c :: rest =>
    if c = 'x' ∨ c = 'X' then parseRadixAll 16 rest
    else if c = 'o' ∨ c = 'O' then parseRadixAll 8 rest
    else if c = 'b' ∨ c = 'B' then parseRadixAll 2 rest
    else jsNumberDec cs
  | _ => jsNumberDec cs

/-- Translation of parseBool from the source: the twelve accepted literals,
anything else is `undefined` (`none`). -/
def parseBool (str : String) : Option Bool :=
  if str = "1" ∨ str = "t" ∨ str = "T" ∨ str = "true" ∨ str = "TRUE" ∨ str = "True" then some true
  else if str = "0" ∨ str = "f" ∨ str = "F" ∨ str = "false" ∨ str = "FALSE" ∨ str = "False" then
    some false
  else none

/-- Translation of `trimLeft`: remove the longest prefix of characters drawn
from the cut-set (the source builds a character-class regex from the cut-set;
for the cut-sets used by the parser this is exactly membership, and an empty
cut-set removes nothing in both). -/
def trimLeft (s cutset : String) : String :=
  String.mk (s.data.dropWhile (· ∈ cutset.data))

/-- Translation of `trimRight`, symmetric to `trimLeft`. -/
def trimRight (s cutset : String) : String :=
  String.mk ((s.data.reverse.dropWhile (· ∈ cutset.data)).reverse)

/-- Translation of `trim`: `trimLeft` then `trimRight`. -/
def trim (s cutset : String) : String :=
  trimRight (trimLeft s cutset) cutset

/-- Fuel-indexed splitter behind `jsSplit`; fuel is the input length, and
every step consumes at least one character, so the fuel never runs out at the
call site. -/
def splitOnListAux (sep : List Char) : Nat → List Char → List Char → List (List Char)
  | 0, cs, acc => [acc.reverse ++ cs]
  | _ + 1, [], acc => [acc.reverse]
  | fuel + 1, c :: cs, acc =>
    if sep.isPrefixOf (c :: cs) then
      acc.reverse :: splitOnListAux sep fuel ((c :: cs).drop sep.length) []
    else
      splitOnListAux sep fuel cs (c :: acc)

/-- JavaScript `String.prototype.split` without a limit argument (empty
separator splits into single characters, and the empty string splits to an
empty array). -/
def jsSplit (s sep : String) : List String :=
  if sep.data = [] then s.data.map (fun c => String.mk [c])
  else (splitOnListAux sep.data s.data.length s.data []).map String.mk

/-- JavaScript `Array.prototype.join` with a separator string. -/
def joinSep (sep : String) : List String → String
  | [] => ""
  | [x] => x
  | x :: xs => x ++ sep ++ joinSep sep xs

/-- Property assignment on an insertion-ordered object: an existing key keeps
its position and gets the new value, a new key is appended. -/
def recSet {α : Type} (l : List (String × α)) (k : String) (v : α) : List (String × α) :=
  if l.any (fun p => p.1 == k) then l.map (fun p => if p.1 == k then (k, v) else p)
  else l ++ [(k, v)]

/-- Property lookup on an insertion-ordered object (`none` is `undefined`). -/
def recGet {α : Type} (l : List (String × α)) (k : String) : Option α :=
  (l.find? (fun p => p.1 == k)).map (·.2)

/-- The `delete` operator on an insertion-ordered object. -/
def recDelete {α : Type} (l : List (String × α)) (k : String) : List (String × α) :=
  l.filter (fun p => !(p.1 == k))

/-- Smallest power of ten the denominator divides, used to print
finite-decimal rationals the way JavaScript prints such numbers. -/
def natToDecPow (den : Nat) : Option Nat :=
  (List.range 40).find? (fun k => (10 : Nat) ^ k % den = 0)

/-- Decimal rendering of a rational: exact for integers and for values with a
power-of-ten-compatible denominator (the only finite values produced by the
literal parsers above); other denominators fall back to a fraction form. -/
def ratToString (q : ℚ) : String :=
  if q.den = 1 then toString q.num
  else
    match natToDecPow q.den with
    | some k =>
      let scaled : Nat := q.num.natAbs * ((10 : Nat) ^ k / q.den)
      let ds := toString scaled
      let padded :=
        if ds.length ≤ k then String.mk (List.replicate (k + 1 - ds.length) '0') ++ ds else ds
      let cut := padded.data.length - k
      (if q.num < 0 then "-" else "") ++ String.mk (padded.data.take cut) ++ "." ++
        String.mk (padded.data.drop cut)
    | none => toString q.num ++ "/" ++ toString q.den

/-- Dynamically-typed cell values flowing through the parser: strings,
numbers and booleans. -/
inductive JSValue where
  | str (s : String)
  | num (n : JSNum)
  | bool (b : Bool)
deriving DecidableEq, Repr

/-- JavaScript string conversion of a value, as used by the template literal
that builds the measurement name. -/
def jsToString : JSValue → String
  | .str s => s
  | .num (.fin q) => ratToString q
  | .num .posInf => "Infinity"
  | .num .negInf => "-Infinity"
  | .bool true => "true"
  | .bool false => "false"

/-- JavaScript loose equality of a value with the empty string, as in the source test measurementValue != \x22\x22: strings compare by content,
numbers against ToNumber of the empty string (0), booleans are converted to
numbers first, so false is loosely equal to the empty string. -/
def jsLooseEqEmptyStr : JSValue → Bool
  | .str s => s == ""
  | .num (.fin q) => q == 0
  | .num _ => false
  | .bool b => b == false

/-- Static parser configuration, one field per option of the source Config
(defaults as in the constructor of the current revision).  `columnNames` here is
the user-supplied initial list; the working copy lives in `ParserState`
because the source mutates `config.columnNames` while resolving headers. -/
structure Config where
  columnNames : List String := []
  columnTypes : List String := []
  comment : String := ""
  defaultTags : List (String × String) := []
  delimiter : String := ""
  headerRowCount : Nat := 0
  measurementColumn : String := ""
  metricName : String := ""
  skipColumns : Nat := 0
  skipRows : Nat := 0
  tagColumns : List String := []
  timestampColumn : String := ""
  timestampFormat : String := ""
  timezone : String := ""
  trimSpace : Bool := false
  skipValues : List String := []
  skipErrors : Bool := true
  metadataRows : Nat := 0
  metadataSeparators : List String := []
  metadataTrimSet : String := ""
  resetMode : String := "none"
deriving Repr

/-- Mutable per-parser cursor state: the row counters, the resolved column
names (the source stores these back into `config.columnNames`), the
resolution flags and the accumulated metadata tags. -/
structure ParserState where
  gotColumnNames : Bool := false
  gotInitialColumnNames : Bool := false
  remainingSkipRows : Nat := 0
  remainingHeaderRows : Nat := 0
  remainingMetadataRows : Nat := 0
  metadataTags : List (String × String) := []
  columnNames : List String := []
deriving DecidableEq, Repr

/-- Timestamps as far as the core can observe them: either the external
formatter applied to a raw value with a format and timezone, or the injected
clock function. -/
inductive TimeVal where
  | formatted (v : JSValue) (format tz : String)
  | clock
deriving DecidableEq, Repr

/-- One output metric, mirroring the metric shape of the source. -/
structure Metric where
  name : String
  tags : List (String × String)
  fields : List (String × JSValue)
  time : TimeVal
deriving DecidableEq, Repr

/-- Lower-casing used on the timestamp format token. -/
def strToLower (s : String) : String :=
  String.mk (s.data.map Char.toLower)

/-- Translation of the exported `ParseTimestamp` at the external formatter
boundary: the recognised epoch/ISO tokens delegate directly, any other token
is a pattern format that requires a string input (default timezone UTC) and
rejects non-strings. -/
def ParseTimestampExt (timestamp : JSValue) (format timezone : String) : Except String TimeVal :=
  let f := strToLower format
  if f = "unix" ∨ f = "unix_ms" ∨ f = "unix_us" ∨ f = "unix_ns" ∨ f = "iso8601" then
    .ok (.formatted timestamp format timezone)
  else
    match timestamp with
    | .str _ => .ok (.formatted timestamp format (if timezone = "" then "UTC" else timezone))
    | _ => .error "Unsupported type"

/-- Translation of `parseTimestamp`: with a configured timestamp column the
raw field must be present and the format non-empty, otherwise the injected
clock is used. -/
def parseTimestamp (recordFields : List (String × JSValue))
    (timestampColumn timestampFormat timezone : String) : Except String TimeVal :=
  if timestampColumn ≠ "" then
    match recGet recordFields timestampColumn with
    | none => .error ("Timestamp column: " ++ timestampColumn ++ " could not be found")
    | some v =>
      if timestampFormat = "" then .error "Timestamp format must be specified"
      else ParseTimestampExt v timestampFormat timezone
  else .ok .clock

/-- Declared-type conversion switch of `parseRecord`: `int` uses `Number`,
`float` uses `parseFloat`, `bool` uses `parseBool`, anything else keeps the
string. -/
def convertType (t : String) (value : String) : Except String JSValue :=
  if t = "int" then
    match jsNumber value with
    | none => .error "Column type: Column is not an integer"
    | some n => .ok (.num n)
  else if t = "float" then
    match jsParseFloat value with
    | none => .error "Column type: Column is not a float"
    | some n => .ok (.num n)
  else if t = "bool" then
    match parseBool value with
    | none => .error "Column type: Column is not a boolean"
    | some b => .ok (.bool b)
  else .ok (.str value)

/-- Automatic conversion used when no column types are declared: `Number`
first, then `parseBool`, else the raw string.  (The older `src/parser.ts`
snapshot additionally guards with `parseInt`/`Number.isInteger` and an
embedded-comma check; on whole-string numeric literals the two agree.) -/
def autoConvert (value : String) : JSValue :=
  match jsNumber value with
  | some n => .num n
  | none =>
    match parseBool value with
    | some b => .bool b
    | none => .str value

/-- Per-column classification loop of `parseRecord` over the enumerated
column names: cells beyond the record are skipped, then skip-values, tag
columns, the timestamp column, declared types (with the count check) and
automatic conversion, in the order of the source. -/
def classifyColumns (cfg : Config) (record : List String) :
    List (Nat × String) → List (String × JSValue) → List (String × String) →
    Except String (List (String × JSValue) × List (String × String))
  | [], fields, tags => .ok (fields, tags)
  | (i, fieldName) :: rest, fields, tags =>
    if i < record.length then
      let value := if cfg.trimSpace then trim (record.getD i "") " " else record.getD i ""
      if cfg.skipValues.contains value then classifyColumns cfg record rest fields tags
      else if cfg.tagColumns.contains fieldName then
        classifyColumns cfg record rest fields (recSet tags fieldName value)
      else if fieldName = cfg.timestampColumn then
        classifyColumns cfg record rest (recSet fields fieldName (.str value)) tags
      else if cfg.columnTypes ≠ [] then
        match cfg.columnTypes.get? i with
        | none => .error "Column type: Column count exceeded"
        | some t =>
          match convertType t value with
          | .error e => .error e
          | .ok v => classifyColumns cfg record rest (recSet fields fieldName v) tags
      else classifyColumns cfg record rest (recSet fields fieldName (autoConvert value)) tags
    else classifyColumns cfg record rest fields tags

/-- Translation of `parseRecord`: skip leading columns, classify, merge
metadata then default tags, resolve the measurement name, resolve the
timestamp (before any field is removed), then delete the measurement and
timestamp columns from the output fields. -/
def parseRecord (cfg : Config) (st : ParserState) (record0 : List String) :
    Except String Metric :=
  let record := record0.drop cfg.skipColumns
  match classifyColumns cfg record st.columnNames.enum [] [] with
  | .error e => .error e
  | .ok (recordFields, tags0) =>
    let tags1 := st.metadataTags.foldl (fun t kv => recSet t kv.1 kv.2) tags0
    let tags := cfg.defaultTags.foldl (fun t kv => recSet t kv.1 kv.2) tags1
    let measurementValue := recGet recordFields cfg.measurementColumn
    let measurementName :=
      match measurementValue with
      | some v =>
        if cfg.measurementColumn ≠ "" ∧ jsLooseEqEmptyStr v = false then jsToString v
        else cfg.metricName
      | none => cfg.metricName
    match parseTimestamp recordFields cfg.timestampColumn cfg.timestampFormat cfg.timezone with
    | .error e => .error e
    | .ok metricTime =>
      let finalFields := recDelete (recDelete recordFields cfg.measurementColumn)
        cfg.timestampColumn
      .ok { name := measurementName, tags := tags, fields := finalFields, time := metricTime }

/-- Translation of the separator loop of `parseMetadataRow`: full split on the
needle, remainder rejoined with the needle, key and value trimmed with the
metadata trim-set, empty keys reject the needle and the next one is tried. -/
def parseMetadataRowGo (trimSet : String) (trimmedHaystack : String) :
    List String → List (String × String)
  | [] => []
  | needle :: rest =>
    let metadata := jsSplit trimmedHaystack needle
    if metadata.length < 2 then parseMetadataRowGo trimSet trimmedHaystack rest
    else
      let value1 := joinSep needle (metadata.drop 1)
      let key := trim (metadata.headD "") trimSet
      if key ≠ "" then [(key, trim value1 trimSet)]
      else parseMetadataRowGo trimSet trimmedHaystack rest

/-- Translation of `parseMetadataRow`: strip trailing CR/LF, then try each
separator of the resolved list in order. -/
def parseMetadataRow (metadataSeparatorList : List String) (metadataTrimSet : String)
    (haystack : String) : List (String × String) :=
  parseMetadataRowGo metadataTrimSet (trimRight haystack "\r\n") metadataSeparatorList

/-- First-occurrence deduplication, as the `patternList` map plus push loop of the source. -/
def dedupFirst (l : List String) : List String :=
  l.foldl (fun acc x => if acc.contains x then acc else acc ++ [x]) []

/-- Stable insertion of a string into a list kept in descending length
order; on equal lengths the inserted (later) element stays behind, matching
the stability of JavaScript `Array.prototype.sort`. -/
def insertLenDesc (x : String) : List String → List String
  | [] => [x]
  | y :: ys => if x.length ≤ y.length then y :: insertLenDesc x ys else x :: y :: ys

/-- Stable sort by descending string length. -/
def sortLenDesc (l : List String) : List String :=
  l.foldl (fun acc x => insertLenDesc x acc) []

/-- Translation of `initializeMetadataSeparator`: nothing to do without
metadata rows, separators are required, then first-occurrence deduplication
and the descending-length sort.  (The older `src/parser.ts` snapshot sorts
ascending instead.) -/
def initializeMetadataSeparator (metadataRows : Nat) (metadataSeparators : List String) :
    Except String (List String) :=
  if metadataRows = 0 then .ok []
  else if metadataSeparators = [] then
    .error "metadataSeparators required when specifying metadataRows"
  else .ok (sortLenDesc (dedupFirst metadataSeparators))

/-- Translation of `reset`: restore the resolution flag, clear the working
column names unless they were user-supplied, and restore the three row
counters; the metadata tags are not touched. -/
def resetState (cfg : Config) (st : ParserState) : ParserState :=
  let got := st.gotInitialColumnNames
  { st with
    gotColumnNames := got
    columnNames := if got then st.columnNames else []
    remainingHeaderRows := cfg.headerRowCount
    remainingMetadataRows := cfg.metadataRows
    remainingSkipRows := cfg.skipRows }

/-- Parser-construction state: record whether column names were
user-supplied, then reset. -/
def initState (cfg : Config) : ParserState :=
  resetState cfg
    { gotColumnNames := false
      gotInitialColumnNames := !cfg.columnNames.isEmpty
      remainingSkipRows := 0
      remainingHeaderRows := 0
      remainingMetadataRows := 0
      metadataTags := []
      columnNames := cfg.columnNames }

/-- Row preprocessing of the CSVReader constructor (src/reader.ts): every
tokenized row has its empty-string cells filtered out before being stored. -/
def readerRecords (rows : List (List String)) : List (List String) :=
  rows.map (fun r => r.filter (fun v => !(v == "")))

/-- Header-cell merge of one header row into the accumulated column names:
a fresh index takes the (optionally trimmed) cell, an occupied index gets the
cell appended by plain string concatenation; surplus old names persist. -/
def mergeHeaderRow (trimSpace : Bool) : List String → List String → List String
  | names, [] => names
  | [], h :: hs => (if trimSpace then trim h " " else h) :: mergeHeaderRow trimSpace [] hs
  | n :: ns, h :: hs =>
    (n ++ (if trimSpace then trim h " " else h)) :: mergeHeaderRow trimSpace ns hs

/-- Header loop of `parseCSV`: consume `remainingHeaderRows` rows from the
reader (EOF if the rows run out), merging each into the names unless column
names were user-supplied. -/
def headerConsume (trimSpace : Bool) :
    Nat → Bool → List String → List (List String) →
    Except String (List String × List (List String))
  | 0, _, names, recs => .ok (names, recs)
  | n + 1, got, names, recs =>
    match recs with
    | [] => .error "EOF"
    | r :: rest =>
      if got then headerConsume trimSpace n got names rest
      else headerConsume trimSpace n got (mergeHeaderRow trimSpace names r) rest

/-- Per-record loop of `parseCSV`: classification errors are swallowed when
`skipErrors` is set and abort the call otherwise. -/
def recordsLoop (cfg : Config) (st : ParserState) : List (List String) → Except String (List Metric)
  | [] => .ok []
  | r :: rs =>
    match parseRecord cfg st r with
    | .ok m =>
      match recordsLoop cfg st rs with
      | .ok ms => .ok (m :: ms)
      | .error e => .error e
    | .error e => if cfg.skipErrors then recordsLoop cfg st rs else .error e

/-- Translation of `parseCSV` from the point where the tokenizer has
produced the rows of the chunk (after the textual skip-row and metadata-row
phases, which consume no rows when the corresponding counters are zero):
reader filtering, the header loop, the one-time skip-column drop that freezes
the names, then the record loop. -/
def parseCSVrows (cfg : Config) (st : ParserState) (rows : List (List String)) :
    Except String (ParserState × List Metric) :=
  let recs := readerRecords rows
  match headerConsume cfg.trimSpace st.remainingHeaderRows st.gotColumnNames st.columnNames recs with
  | .error e => .error e
  | .ok (names, rest) =>
    let finalNames := if st.gotColumnNames then names else names.drop cfg.skipColumns
    let st2 := { st with remainingHeaderRows := 0, gotColumnNames := true,
                         columnNames := finalNames }
    match recordsLoop cfg st2 rest with
    | .error e => .error e
    | .ok ms => .ok (st2, ms)

/-- Translation of `parseLine`: the empty-chunk early-exit consumes a
pending skip or metadata row (signalled as EOF), otherwise the chunk is
parsed and exactly one metric is returned, zero metrics give null, and more
than one is an error naming the count. -/
def parseLineRows (cfg : Config) (st : ParserState) (lineEmpty : Bool)
    (rows : List (List String)) : Except String (ParserState × Option Metric) :=
  if lineEmpty ∧ (0 < st.remainingSkipRows ∨ 0 < st.remainingMetadataRows) then .error "EOF"
  else
    match parseCSVrows cfg st rows with
    | .error e => .error e
    | .ok (st2, ms) =>
      match ms with
      | [m] => .ok (st2, some m)
      | [] => .ok (st2, none)
      | _ => .error ("Expected 1 metric found " ++ toString ms.length)

end CSV

/-- Configuration of the untyped-coercion example (empty columnTypes). -/
def cfgC1 : CSV.Config :=
  { columnNames := ["first", "second", "third", "fourth"], metricName := "test_value" }

/-- Configuration of the declared-type example. -/
def cfgC2 : CSV.Config :=
  { columnNames := ["first", "second", "third", "fourth"], metricName := "test_value",
    columnTypes := ["float", "int", "bool", "string"] }

/-- Configuration with a single declared type, for header-derived names. -/
def cfgC2b : CSV.Config := { columnTypes := ["int"], headerRowCount := 1, metricName := "m" }

/-- Cursor state with two header-derived names against one declared type. -/
def stC2b : CSV.ParserState :=
  { gotColumnNames := true, gotInitialColumnNames := false, columnNames := ["a", "b"] }

/-- Configuration with one declared int column. -/
def cfgC2x : CSV.Config := { columnNames := ["a"], columnTypes := ["int"], metricName := "csv" }

/-- Configuration of the measurement-resolution example. -/
def cfgC3 : CSV.Config :=
  { columnNames := ["first", "second", "third"], measurementColumn := "third",
    headerRowCount := 1, metricName := "csv" }

/-- Configuration with a timestamp column, to observe its removal from fields. -/
def cfgC3t : CSV.Config :=
  { columnNames := ["t", "v"], timestampColumn := "t", timestampFormat := "unix",
    metricName := "csvT" }

/-- Configuration whose measurement column receives the numeric value 0. -/
def cfgC3x : CSV.Config :=
  { columnNames := ["a", "b"], measurementColumn := "a", metricName := "csv" }

/-- Configuration of the two-row header concatenation example. -/
def cfgC6 : CSV.Config := { headerRowCount := 2, trimSpace := true, metricName := "m" }

/-- Configuration of the header example with one skipped column. -/
def cfgC6b : CSV.Config := { headerRowCount := 2, skipColumns := 1, metricName := "m" }

/-- Configuration with an empty timestamp format and skipErrors enabled. -/
def cfgC7 : CSV.Config :=
  { columnNames := ["t"], timestampColumn := "t", timestampFormat := "", skipErrors := true }

/-- Configuration with an empty timestamp format and skipErrors disabled. -/
def cfgC7b : CSV.Config :=
  { columnNames := ["t"], timestampColumn := "t", timestampFormat := "", skipErrors := false }

/-- Configuration whose timestamp column never appears among the fields. -/
def cfgC7c : CSV.Config :=
  { columnNames := ["t"], timestampColumn := "nope", timestampFormat := "unix",
    skipErrors := false }

/-- Single-column configuration used for the metric-cardinality example. -/
def cfgC8 : CSV.Config := { columnNames := ["a"], metricName := "csv" }

/-- Single-column configuration for the reset frame example. -/
def cfgC9 : CSV.Config := { columnNames := ["a"], metricName := "csv" }

/-- Cursor state carrying an accumulated metadata tag into a reset. -/
def stC9 : CSV.ParserState :=
  { gotColumnNames := true, gotInitialColumnNames := true, metadataTags := [("k", "v")],
    columnNames := ["a"] }

/-- Cursor state whose column names were header-derived, not user-supplied. -/
def stC9w : CSV.ParserState :=
  { gotColumnNames := true, gotInitialColumnNames := false, metadataTags := [("k", "v")],
    columnNames := ["x"] }

/-- Lookup after a cons step of the association-list object. -/
theorem recGet_cons {α : Type} (p : String × α) (l : List (String × α)) (k : String) :
    CSV.recGet (p :: l) k = if p.1 = k then some p.2 else CSV.recGet l k := by
  by_cases h : p.1 = k <;> simp [CSV.recGet, List.find?_cons, h]

/-- Deletion after a cons step of the association-list object. -/
theorem recDelete_cons {α : Type} (p : String × α) (l : List (String × α)) (k : String) :
    CSV.recDelete (p :: l) k = if p.1 = k then CSV.recDelete l k else p :: CSV.recDelete l k := by
  by_cases h : p.1 = k <;> simp [CSV.recDelete, List.filter_cons, h]

/-- Deleting a key removes it from the object. -/
theorem recGet_recDelete_self {α : Type} (l : List (String × α)) (k : String) :
    CSV.recGet (CSV.recDelete l k) k = none := by
  induction l with
  | nil => rfl
  | cons p l ih =>
    rw [recDelete_cons]
    by_cases h : p.1 = k
    · simpa [h] using ih
    · rw [if_neg h, recGet_cons, if_neg h]; exact ih

/-- Deleting one key cannot make another key appear. -/
theorem recGet_recDelete_none {α : Type} (l : List (String × α)) (j k : String)
    (h : CSV.recGet l k = none) : CSV.recGet (CSV.recDelete l j) k = none := by
  induction l with
  | nil => rfl
  | cons p l ih =>
    rw [recGet_cons] at h
    by_cases hk : p.1 = k
    · rw [if_pos hk] at h; exact absurd h (by simp)
    · rw [if_neg hk] at h
      rw [recDelete_cons]
      by_cases hj : p.1 = j
      · rw [if_pos hj]; exact ih h
      · rw [if_neg hj, recGet_cons, if_neg hk]; exact ih h

/-- Every successfully classified record has neither the measurement column
nor the timestamp column among its output fields. -/
theorem parseRecord_excludes (cfg : CSV.Config) (st : CSV.ParserState)
    (rec : List String) (m : CSV.Metric) (h : CSV.parseRecord cfg st rec = .ok m) :
    CSV.recGet m.fields cfg.measurementColumn = none ∧
    CSV.recGet m.fields cfg.timestampColumn = none := by
  simp only [CSV.parseRecord] at h
  split at h
  · exact absurd h (by simp)
  · split at h
    · exact absurd h (by simp)
    · injection h with h2
      subst h2
      exact ⟨recGet_recDelete_none _ _ _ (recGet_recDelete_self _ cfg.measurementColumn),
        recGet_recDelete_self _ cfg.timestampColumn⟩

/-- Merging a header row into empty names with no trimming keeps the row. -/
theorem mergeHeaderRow_nil_left (r : List String) : CSV.mergeHeaderRow false [] r = r := by
  induction r with
  | nil => rfl
  | cons h hs ih => simp [CSV.mergeHeaderRow, ih]

/-- Merging equal-length rows concatenates cell-wise. -/
theorem mergeHeaderRow_eq_zipWith :
    ∀ (r1 r2 : List String), r1.length = r2.length →
    CSV.mergeHeaderRow false r1 r2 = List.zipWith (fun a b => a ++ b) r1 r2 := by
  intro r1
  induction r1 with
  | nil =>
    intro r2 h
    cases r2 with
    | nil => rfl
    | cons c cs => simp at h
  | cons n ns ih =>
    intro r2 h
    cases r2 with
    | nil => simp at h
    | cons c cs => simp [CSV.mergeHeaderRow, ih cs (by simpa using h)]

/-- Membership through the stable descending-length insertion. -/
theorem mem_insertLenDesc {x a : String} {l : List String} :
    x ∈ CSV.insertLenDesc a l ↔ x = a ∨ x ∈ l := by
  induction l with
  | nil => simp [CSV.insertLenDesc]
  | cons y ys ih =>
    simp only [CSV.insertLenDesc]
    split
    · simp [ih, List.mem_cons]; tauto
    · simp [List.mem_cons]

/-- Stable descending-length insertion preserves nodup. -/
theorem nodup_insertLenDesc {a : String} {l : List String} (ha : a ∉ l) (h : l.Nodup) :
    (CSV.insertLenDesc a l).Nodup := by
  induction l with
  | nil => simp [CSV.insertLenDesc]
  | cons y ys ih =>
    simp only [CSV.insertLenDesc]
    rw [List.nodup_cons] at h
    split
    · rw [List.nodup_cons]
      refine ⟨?_, ih (fun hx => ha (List.mem_cons_of_mem y hx)) h.2⟩
      intro hy
      rcases mem_insertLenDesc.mp hy with h1 | h1
      · exact ha (h1 ▸ List.mem_cons_self y ys)
      · exact h.1 h1
    · rw [List.nodup_cons]
      exact ⟨ha, List.nodup_cons.mpr h⟩

/-- Stable descending-length insertion preserves the sortedness invariant. -/
theorem pairwise_insertLenDesc {a : String} {l : List String}
    (h : l.Pairwise (fun x y => y.length ≤ x.length)) :
    (CSV.insertLenDesc a l).Pairwise (fun x y => y.length ≤ x.length) := by
  induction l with
  | nil => simp [CSV.insertLenDesc]
  | cons y ys ih =>
    rw [List.pairwise_cons] at h
    simp only [CSV.insertLenDesc]
    split
    · rename_i hle
      rw [List.pairwise_cons]
      refine ⟨?_, ih h.2⟩
      intro z hz
      rcases mem_insertLenDesc.mp hz with h1 | h1
      · exact h1 ▸ hle
      · exact h.1 z h1
    · rename_i hgt
      rw [List.pairwise_cons]
      constructor
      · intro z hz
        rcases List.mem_cons.mp hz with h1 | h1
        · subst h1; omega
        · have := h.1 z h1; omega
      · exact List.pairwise_cons.mpr h

/-- Folding the stable insertion keeps nodup, sortedness and membership. -/
theorem sortFold_props :
    ∀ (l acc : List String), acc.Nodup →
      acc.Pairwise (fun x y => y.length ≤ x.length) →
      (∀ x, x ∈ l → x ∉ acc) → l.Nodup →
      (l.foldl (fun a x => CSV.insertLenDesc x a) acc).Nodup ∧
      (l.foldl (fun a x => CSV.insertLenDesc x a) acc).Pairwise
        (fun x y => y.length ≤ x.length) ∧
      (∀ x, x ∈ l.foldl (fun a x => CSV.insertLenDesc x a) acc ↔ x ∈ acc ∨ x ∈ l) := by
  intro l
  induction l with
  | nil => intro acc h1 h2 _ _; exact ⟨h1, h2, by simp⟩
  | cons a as ih =>
    intro acc h1 h2 h3 h4
    rw [List.nodup_cons] at h4
    have hnd : (CSV.insertLenDesc a acc).Nodup :=
      nodup_insertLenDesc (h3 a (List.mem_cons_self a as)) h1
    have hpw : (CSV.insertLenDesc a acc).Pairwise (fun x y => y.length ≤ x.length) :=
      pairwise_insertLenDesc h2
    have hdisj : ∀ x, x ∈ as → x ∉ CSV.insertLenDesc a acc := by
      intro x hx hmem
      rcases mem_insertLenDesc.mp hmem with h5 | h5
      · exact h4.1 (h5 ▸ hx)
      · exact h3 x (List.mem_cons_of_mem a hx) h5
    obtain ⟨g1, g2, g3⟩ := ih (CSV.insertLenDesc a acc) hnd hpw hdisj h4.2
    refine ⟨g1, g2, ?_⟩
    intro x
    rw [List.foldl_cons, g3 x, mem_insertLenDesc]
    simp [List.mem_cons]
    tauto

/-- First-occurrence deduplication yields a nodup list with the same
members. -/
theorem dedupFirst_props :
    ∀ (l acc : List String), acc.Nodup →
      (l.foldl (fun a x => if a.contains x then a else a ++ [x]) acc).Nodup ∧
      (∀ x, x ∈ l.foldl (fun a x => if a.contains x then a else a ++ [x]) acc ↔
        x ∈ acc ∨ x ∈ l) := by
  intro l
  induction l with
  | nil => intro acc h1; exact ⟨h1, by simp⟩
  | cons a as ih =>
    intro acc h1
    by_cases hc : acc.contains a = true
    · have hmem : a ∈ acc := List.elem_iff.mp hc
      obtain ⟨g1, g2⟩ := ih acc h1
      constructor
      · rw [List.foldl_cons, if_pos hc]
        exact g1
      · intro x
        rw [List.foldl_cons, if_pos hc, g2 x]
        simp only [List.mem_cons]
        constructor
        · tauto
        · rintro (h | rfl | h)
          · tauto
          · exact Or.inl hmem
          · tauto
    · have hmem : a ∉ acc := fun hx => hc (List.elem_iff.mpr hx)
      have h2 : (acc ++ [a]).Nodup := by
        rw [List.nodup_append]
        exact ⟨h1, List.nodup_singleton a, by simpa [List.disjoint_singleton] using hmem⟩
      obtain ⟨g1, g2⟩ := ih (acc ++ [a]) h2
      constructor
      · rw [List.foldl_cons, if_neg hc]
        exact g1
      · intro x
        rw [List.foldl_cons, if_neg hc, g2 x]
        simp only [List.mem_cons, List.mem_append, List.mem_singleton]
        tauto

/-- With skipErrors enabled the record loop never fails. -/
theorem recordsLoop_ok_of_skipErrors (cfg : CSV.Config) (st : CSV.ParserState)
    (h : cfg.skipErrors = true) :
    ∀ rs, ∃ ms, CSV.recordsLoop cfg st rs = .ok ms := by
  intro rs
  induction rs with
  | nil => exact ⟨[], rfl⟩
  | cons r rs ih =>
    obtain ⟨ms, hms⟩ := ih
    cases hpr : CSV.parseRecord cfg st r with
    | ok m => exact ⟨m :: ms, by simp [CSV.recordsLoop, hpr, hms]⟩
    | error e => exact ⟨ms, by simp [CSV.recordsLoop, hpr, h, hms]⟩

/-- A failing record loop implies skipErrors was disabled. -/
theorem recordsLoop_error_skipErrors (cfg : CSV.Config) (st : CSV.ParserState) :
    ∀ (rs : List (List String)) (e : String),
      CSV.recordsLoop cfg st rs = .error e → cfg.skipErrors = false := by
  intro rs
  induction rs with
  | nil => intro e h; exact absurd h (by simp [CSV.recordsLoop])
  | cons r rs ih =>
    intro e h
    simp only [CSV.recordsLoop] at h
    cases hpr : CSV.parseRecord cfg st r with
    | ok m =>
      rw [hpr] at h
      dsimp only at h
      cases hrec : CSV.recordsLoop cfg st rs with
      | ok ms => rw [hrec] at h; exact absurd h (by simp)
      | error e2 => exact ih e2 hrec
    | error e2 =>
      rw [hpr] at h
      dsimp only at h
      by_cases hs : cfg.skipErrors = true
      · rw [if_pos hs] at h
        exact ih e h
      · exact Bool.not_eq_true cfg.skipErrors |>.mp hs

/-- Claim C1: with no declared column types, each non-skipped, non-tag,
non-timestamp cell is coerced numeric-first, then boolean, with the raw
string as fallback: over the record true,4,9.9,hello the fields are a
boolean, the integer 4, the non-integer rational 9.9 and the string hello;
in general a numeric parse wins, a boolean parse is used only when the
numeric parse fails, and a value failing both is stored as the string
itself. -/
theorem claim_C1 :
    (CSV.parseRecord cfgC1 (CSV.initState cfgC1) ["true", "4", "9.9", "hello"] =
      .ok { name := "test_value", tags := [],
            fields := [("first", .bool true), ("second", .num (.fin 4)),
                       ("third", .num (.fin (mkRat 99 10))), ("fourth", .str "hello")],
            time := .clock })
    ∧ (4 : ℚ).den = 1 ∧ (mkRat 99 10).den ≠ 1
    ∧ (∀ v n, CSV.jsNumber v = some n → CSV.autoConvert v = .num n)
    ∧ (∀ v b, CSV.jsNumber v = none → CSV.parseBool v = some b → CSV.autoConvert v = .bool b)
    ∧ (∀ v, CSV.jsNumber v = none → CSV.parseBool v = none → CSV.autoConvert v = .str v) := by
  refine ⟨by rfl, by decide, by decide, ?_, ?_, ?_⟩
  · intro v n h; simp [CSV.autoConvert, h]
  · intro v b h1 h2; simp [CSV.autoConvert, h1, h2]
  · intro v h1 h2; simp [CSV.autoConvert, h1, h2]

/-- Witness for claim C1 at the literal hello. -/
theorem claim_C1_witness :
    CSV.jsNumber "hello" = none ∧ CSV.parseBool "hello" = none ∧
    CSV.autoConvert "hello" = CSV.JSValue.str "hello" :=
  ⟨by decide, by decide, claim_C1.2.2.2.2.2 "hello" (by decide) (by decide)⟩

/-- Counterexample for claim C2: under declared column types
float,int,bool,string the record 9.9 in an int column is accepted without
any per-record error, storing the non-integer rational 9.9, although 9.9 is
not a valid integer literal. -/
theorem claim_C2_counterexample :
    CSV.parseRecord cfgC2x (CSV.initState cfgC2x) ["9.9"] =
      .ok { name := "csv", tags := [],
            fields := [("a", .num (.fin (mkRat 99 10)))], time := .clock }
    ∧ (mkRat 99 10).den ≠ 1 := ⟨by rfl, by decide⟩

/-- Claim C2 as amended: the declared type at each index is authoritative,
but the int and float checks only require the JavaScript numeric conversion
to succeed (Number for int, parseFloat for float) rather than strict
integer/float literal syntax; conversion failure and an index beyond the
declared list are fatal per-record errors; the example record
3.3,4,true,hello under float,int,bool,string yields 3.3, 4, true and the
string hello. -/
theorem claim_C2 :
    (CSV.parseRecord cfgC2 (CSV.initState cfgC2) ["3.3", "4", "true", "hello"] =
      .ok { name := "test_value", tags := [],
            fields := [("first", .num (.fin (mkRat 33 10))), ("second", .num (.fin 4)),
                       ("third", .bool true), ("fourth", .str "hello")],
            time := .clock })
    ∧ (∀ v, CSV.jsNumber v = none →
        CSV.convertType "int" v = .error "Column type: Column is not an integer")
    ∧ (∀ v, CSV.jsParseFloat v = none →
        CSV.convertType "float" v = .error "Column type: Column is not a float")
    ∧ (∀ v, CSV.parseBool v = none →
        CSV.convertType "bool" v = .error "Column type: Column is not a boolean")
    ∧ (CSV.parseRecord cfgC2b stC2b ["1", "2"] =
        .error "Column type: Column count exceeded") := by
  refine ⟨by rfl, ?_, ?_, ?_, by rfl⟩
  · intro v h; simp [CSV.convertType, h]
  · intro v h; simp [CSV.convertType, h]
  · intro v h; simp [CSV.convertType, h]

/-- Witness for claim C2 at the non-numeric literal abc. -/
theorem claim_C2_witness :
    CSV.jsNumber "abc" = none ∧
    CSV.convertType "int" "abc" = .error "Column type: Column is not an integer" :=
  ⟨by decide, claim_C2.2.1 "abc" (by decide)⟩

/-- Counterexample for claim C3: with measurement column a over the record
0,2 the measurement field is present and its string representation 0 is
non-empty, yet the metric is named by the metricName fallback csv, because
the source compares the field against the empty string with JavaScript
loose equality and 0 is loosely equal to the empty string. -/
theorem claim_C3_counterexample :
    CSV.parseRecord cfgC3x (CSV.initState cfgC3x) ["0", "2"] =
      .ok { name := "csv", tags := [],
            fields := [("b", .num (.fin 2))], time := .clock }
    ∧ CSV.jsToString (.num (.fin 0)) = "0" ∧ ("csv" : String) ≠ "0" :=
  ⟨by rfl, by rfl, by decide⟩

/-- Claim C3 as amended: the metric name is the string representation of
the measurement-column field when measurementColumn is set and that field is
present and not loosely equal to the empty string (numeric 0 and boolean
false also fall back, by JavaScript loose equality), and is metricName
otherwise; the measurement-column field and the timestamp-column field are
always absent from the output fields: the header-then-data example yields
name test_name with fields first and second only, a timestamp column is
removed from the fields after the time is resolved, and every successfully
classified record excludes both columns from its fields. -/
theorem claim_C3 :
    ((CSV.parseCSVrows cfgC3 (CSV.initState cfgC3)
        [["line1", "line2", "line3"], ["3.4", "70", "test_name"]]).map Prod.snd =
      .ok [{ name := "test_name", tags := [],
             fields := [("first", .num (.fin (mkRat 17 5))), ("second", .num (.fin 70))],
             time := .clock }])
    ∧ (CSV.parseRecord cfgC3t (CSV.initState cfgC3t) ["5", "7"] =
        .ok { name := "csvT", tags := [],
              fields := [("v", .num (.fin 7))],
              time := .formatted (.str "5") "unix" "" })
    ∧ (CSV.parseRecord cfgC3x (CSV.initState cfgC3x) ["0", "2"] =
        .ok { name := "csv", tags := [],
              fields := [("b", .num (.fin 2))], time := .clock })
    ∧ (∀ (cfg : CSV.Config) (st : CSV.ParserState) (rec : List String) (m : CSV.Metric),
        CSV.parseRecord cfg st rec = .ok m →
        CSV.recGet m.fields cfg.measurementColumn = none ∧
        CSV.recGet m.fields cfg.timestampColumn = none) := by
  refine ⟨by rfl, by rfl, by rfl, ?_⟩
  exact parseRecord_excludes

/-- Witness for claim C3 at the timestamp-column example. -/
theorem claim_C3_witness :
    CSV.recGet [("v", CSV.JSValue.num (.fin 7))] "t" = none :=
  (claim_C3.2.2.2 cfgC3t (CSV.initState cfgC3t) ["5", "7"]
    { name := "csvT", tags := [], fields := [("v", .num (.fin 7))],
      time := .formatted (.str "5") "unix" "" } (by rfl)).2

/-- Claim C4: with metadata rows configured and a non-empty separator list,
the resolved separator list is the configured separators with duplicates
removed (same members, no duplicates) ordered by descending string length,
and the example list comma, equals, comma, colon, equals, colon-equals
resolves to colon-equals, comma, equals, colon. -/
theorem claim_C4 :
    (∀ (metadataRows : Nat) (seps : List String), 0 < metadataRows → seps ≠ [] →
      ∃ L, CSV.initializeMetadataSeparator metadataRows seps = .ok L ∧
        L.Nodup ∧ L.Pairwise (fun a b => b.length ≤ a.length) ∧
        (∀ x, x ∈ L ↔ x ∈ seps))
    ∧ CSV.initializeMetadataSeparator 1 [",", "=", ",", ":", "=", ":="] =
        .ok [":=", ",", "=", ":"] := by
  constructor
  · intro n seps hn hs
    refine ⟨CSV.sortLenDesc (CSV.dedupFirst seps), ?_, ?_, ?_, ?_⟩
    · simp only [CSV.initializeMetadataSeparator]
      rw [if_neg (by omega), if_neg hs]
    · obtain ⟨d1, d2⟩ := dedupFirst_props seps [] List.nodup_nil
      obtain ⟨g1, _, _⟩ := sortFold_props (CSV.dedupFirst seps) [] List.nodup_nil
        List.Pairwise.nil (by simp) d1
      exact g1
    · obtain ⟨d1, d2⟩ := dedupFirst_props seps [] List.nodup_nil
      obtain ⟨_, g2, _⟩ := sortFold_props (CSV.dedupFirst seps) [] List.nodup_nil
        List.Pairwise.nil (by simp) d1
      exact g2
    · obtain ⟨d1, d2⟩ := dedupFirst_props seps [] List.nodup_nil
      obtain ⟨_, _, g3⟩ := sortFold_props (CSV.dedupFirst seps) [] List.nodup_nil
        List.Pairwise.nil (by simp) d1
      intro x
      simp only [CSV.sortLenDesc]
      rw [g3 x]
      simp only [CSV.dedupFirst]
      rw [d2 x]
      simp
  · rfl

/-- Witness for claim C4 at the example separator list. -/
theorem claim_C4_witness :
    ∃ L, CSV.initializeMetadataSeparator 1 [",", "=", ",", ":", "=", ":="] = .ok L ∧
      L.Nodup ∧ L.Pairwise (fun a b => b.length ≤ a.length) ∧
      (∀ x, x ∈ L ↔ x ∈ [",", "=", ",", ":", "=", ":="]) :=
  claim_C4.1 1 [",", "=", ",", ":", "=", ":="] (by decide) (by decide)

/-- Claim C5: a metadata line is stripped of trailing CR and LF, the first
listed separator occurring in the line splits it at its first occurrence
with the remainder rejoined (a equals space b equals c gives value b=c even
though the separator recurs), both parts are trimmed with the metadata trim
set, a separator producing an empty trimmed key is rejected in favour of the
next one, and a line in which no separator yields a non-empty key produces
no metadata tag. -/
theorem claim_C5 :
    CSV.parseMetadataRow ["="] " " "a = b=c\r\n" = [("a", "b=c")]
    ∧ CSV.parseMetadataRow [":=", "="] "" "k:=v=w" = [("k", "v=w")]
    ∧ CSV.parseMetadataRow [":=", ","] "" ":=a,b" = [(":=a", "b")]
    ∧ CSV.parseMetadataRow ["="] "" "abc" = []
    ∧ CSV.parseMetadataRow ["="] " " " =abc" = [] := by
  refine ⟨by rfl, by rfl, by rfl, by rfl, by rfl⟩

/-- Claim C6: header resolution with names not user-supplied concatenates
header cells index-wise across rows by plain string concatenation (for
equal-length rows the result is exactly the cell-wise concatenation), drops
the first skipColumns names afterwards, and on the two rows col,col,col and
1,2,3 with trimming enabled resolves the names col1, col2, col3. -/
theorem claim_C6 :
    ((CSV.parseCSVrows cfgC6 (CSV.initState cfgC6)
        [["col", "col", "col"], ["1", "2", "3"], ["test space", "80", "test_name"]]).map
      (fun p => p.1.columnNames) = .ok ["col1", "col2", "col3"])
    ∧ ((CSV.parseCSVrows cfgC6b (CSV.initState cfgC6b)
        [["col", "col", "col"], ["1", "2", "3"], ["trash", "80", "test_name"]]).map
      (fun p => p.1.columnNames) = .ok ["col2", "col3"])
    ∧ (∀ (r1 r2 : List String), r1.length = r2.length →
        CSV.mergeHeaderRow false (CSV.mergeHeaderRow false [] r1) r2 =
          List.zipWith (fun a b => a ++ b) r1 r2) := by
  refine ⟨by rfl, by rfl, ?_⟩
  intro r1 r2 h
  rw [mergeHeaderRow_nil_left, mergeHeaderRow_eq_zipWith r1 r2 h]

/-- Witness for claim C6 at a pair of singleton header rows. -/
theorem claim_C6_witness :
    CSV.mergeHeaderRow false (CSV.mergeHeaderRow false [] ["col"]) ["1"] =
      List.zipWith (fun a b => a ++ b) ["col"] ["1"] :=
  claim_C6.2.2 ["col"] ["1"] (by decide)

/-- Counterexample for claim C7: a record whose timestamp resolution fails
(configured timestamp column with an empty format) is silently dropped when
skipErrors is true: the parse call succeeds with no metrics instead of
failing, so timestamp errors are not always fatal. -/
theorem claim_C7_counterexample :
    CSV.parseCSVrows cfgC7 (CSV.initState cfgC7) [["x"]] =
      .ok ({ gotColumnNames := true, gotInitialColumnNames := true, remainingSkipRows := 0,
             remainingHeaderRows := 0, remainingMetadataRows := 0, metadataTags := [],
             columnNames := ["t"] }, []) := by rfl

/-- Claim C7 as amended: timestamp-resolution failures (missing configured
timestamp column, empty format) are per-record errors subject to skipErrors
like any other classification error: with skipErrors enabled every record
loop outcome is a success (offending records are dropped), and they are
fatal to the parse call exactly when skipErrors is disabled. -/
theorem claim_C7 :
    (∀ (cfg : CSV.Config) (st : CSV.ParserState) (rows : List (List String)),
        cfg.skipErrors = true → st.remainingHeaderRows = 0 →
        ∃ p, CSV.parseCSVrows cfg st rows = .ok p)
    ∧ (CSV.parseCSVrows cfgC7b (CSV.initState cfgC7b) [["x"]] =
        .error "Timestamp format must be specified")
    ∧ (CSV.parseCSVrows cfgC7c (CSV.initState cfgC7c) [["x"]] =
        .error "Timestamp column: nope could not be found") := by
  refine ⟨?_, by rfl, by rfl⟩
  intro cfg st rows hskip hh
  simp only [CSV.parseCSVrows]
  rw [hh]
  simp only [CSV.headerConsume]
  split
  · rename_i e heq
    have := recordsLoop_error_skipErrors _ _ _ _ heq
    rw [hskip] at this
    exact absurd this (by simp)
  · exact ⟨_, rfl⟩

/-- Witness for claim C7 at the skipErrors configuration. -/
theorem claim_C7_witness :
    ∃ p, CSV.parseCSVrows cfgC7 (CSV.initState cfgC7) [["x"]] = .ok p :=
  claim_C7.1 cfgC7 (CSV.initState cfgC7) [["x"]] (by rfl) (by rfl)

/-- Claim C8: for any chunk whose parse yields metrics ms, parseLine returns
the single metric when ms has exactly one element, null when ms is empty,
and an error naming the count when ms has two or more elements. -/
theorem claim_C8 :
    ∀ (cfg : CSV.Config) (st : CSV.ParserState) (rows : List (List String))
      (st2 : CSV.ParserState) (ms : List CSV.Metric),
      CSV.parseCSVrows cfg st rows = .ok (st2, ms) →
      (∀ m, ms = [m] → CSV.parseLineRows cfg st false rows = .ok (st2, some m)) ∧
      (ms = [] → CSV.parseLineRows cfg st false rows = .ok (st2, none)) ∧
      (2 ≤ ms.length → CSV.parseLineRows cfg st false rows =
        .error ("Expected 1 metric found " ++ toString ms.length)) := by
  intro cfg st rows st2 ms h
  refine ⟨?_, ?_, ?_⟩
  · intro m hm; subst hm; simp [CSV.parseLineRows, h]
  · intro hm; subst hm; simp [CSV.parseLineRows, h]
  · intro hlen
    cases ms with
    | nil => simp at hlen
    | cons a tl =>
      cases tl with
      | nil => simp at hlen
      | cons b rest => simp [CSV.parseLineRows, h]

/-- Witness for claim C8 at a two-record chunk. -/
theorem claim_C8_witness :
    CSV.parseLineRows cfgC8 (CSV.initState cfgC8) false [["1"], ["2"]] =
      .error "Expected 1 metric found 2" :=
  (claim_C8 cfgC8 (CSV.initState cfgC8) [["1"], ["2"]]
    { gotColumnNames := true, gotInitialColumnNames := true, remainingSkipRows := 0,
      remainingHeaderRows := 0, remainingMetadataRows := 0, metadataTags := [],
      columnNames := ["a"] }
    [{ name := "csv", tags := [], fields := [("a", .num (.fin 1))], time := .clock },
     { name := "csv", tags := [], fields := [("a", .num (.fin 2))], time := .clock }]
    (by rfl)).2.2 (by decide)

/-- Claim C9: reset restores the three remaining-row counters from the
configuration, restores the resolution flag, clears the working column names
exactly when they were not user-supplied, and leaves the accumulated
metadata tags untouched, so tags extracted in one stream are still applied
to metrics of the next stream, as the concrete post-reset record shows. -/
theorem claim_C9 :
    (∀ (cfg : CSV.Config) (st : CSV.ParserState),
      (CSV.resetState cfg st).metadataTags = st.metadataTags ∧
      (CSV.resetState cfg st).remainingSkipRows = cfg.skipRows ∧
      (CSV.resetState cfg st).remainingMetadataRows = cfg.metadataRows ∧
      (CSV.resetState cfg st).remainingHeaderRows = cfg.headerRowCount ∧
      (CSV.resetState cfg st).gotColumnNames = st.gotInitialColumnNames ∧
      (st.gotInitialColumnNames = false → (CSV.resetState cfg st).columnNames = []) ∧
      (st.gotInitialColumnNames = true → (CSV.resetState cfg st).columnNames = st.columnNames))
    ∧ (CSV.parseRecord cfgC9 (CSV.resetState cfgC9 stC9) ["1"] =
        .ok { name := "csv", tags := [("k", "v")],
              fields := [("a", .num (.fin 1))], time := .clock }) := by
  refine ⟨?_, by rfl⟩
  intro cfg st
  refine ⟨rfl, rfl, rfl, rfl, rfl, ?_, ?_⟩
  · intro h; simp [CSV.resetState, h]
  · intro h; simp [CSV.resetState, h]

/-- Witness for claim C9 at a state with header-derived names. -/
theorem claim_C9_witness :
    (CSV.resetState cfgC9 stC9w).columnNames = [] :=
  ((claim_C9.1 cfgC9 stC9w).2.2.2.2.2.1) (by rfl)

/-- Claim C10: the reader filters every empty-string cell out of each
tokenized row before the record is stored, so no record delivered to
classification contains an empty cell, and a row with an empty middle cell
has its later cells shifted to lower indices. -/
theorem claim_C10 :
    (∀ (rows : List (List String)) (r : List String) (c : String),
      r ∈ CSV.readerRecords rows → c ∈ r → ¬(c = ""))
    ∧ CSV.readerRecords [["a", "", "b"]] = [["a", "b"]] := by
  refine ⟨?_, by rfl⟩
  intro rows r c hr hc
  simp only [CSV.readerRecords, List.mem_map] at hr
  obtain ⟨r0, _, rfl⟩ := hr
  have := (List.mem_filter.mp hc).2
  simpa using this

/-- Witness for claim C10 at a row with an empty middle cell. -/
theorem claim_C10_witness : ¬(("a" : String) = "") :=
  claim_C10.1 [["a", "", "b"]] ["a", "b"] "a" (by decide) (by decide)
